import Mathlib

/-!
Shallow embedding of `lightmcmc.py`: a single-site Metropolis-Hastings MCMC
engine over traces of named random choices, plus a rejection sampler.

Python's global random state is modelled as an explicit state `ρ` threaded
through every operation, together with a `RandomSource ρ` record providing the
two primitives the engine consumes (`random.choice` index selection and
`np.random.uniform(0,1)`).  Exceptions are modelled by `Except PyExc`; every
stateful operation returns the random state alongside the result, so the state
survives a raised exception exactly as Python's global state does.  Scores
(Python floats holding probabilities) are modelled as rationals.  Unbounded
`while` loops (`initialize`, `single_rejection`) take explicit fuel and report
exhaustion as the distinct error `PyExc.fuelOut`.
-/

/-- Errors of the Python program: `ZeroProbabilityException`, any other fatal
runtime error (`IndexError` from `random.choice` on an empty list,
`ZeroDivisionError`), and fuel exhaustion standing for non-termination of an
unbounded loop. -/
inductive PyExc : Type where
  | zeroProbabilityException : PyExc
  | crash : PyExc
  | fuelOut : PyExc
deriving DecidableEq, Repr

/-- The two primitives of Python's global random generator that the engine
uses: an index stream modelling `random.choice` (used modulo the list length)
and a uniform draw on `[0,1)` modelling `np.random.uniform(0, 1)`. -/
structure RandomSource (ρ : Type) where
  choiceIndex : ρ → Nat × ρ
  uniform01 : ρ → ℚ × ρ

/-- `flip(weight) = np.random.uniform(0, 1) <= weight`. -/
def pyFlip {ρ : Type} (rs : RandomSource ρ) (weight : ℚ) (r : ρ) : Bool × ρ :=
  let (u, r') := rs.uniform01 r
  (if u ≤ weight then true else false, r')

/-- `Choice`: a sampler + scorer + description triple (class `Choice`). -/
structure Choice (V ρ : Type) where
  sampler : ρ → V × ρ
  scorer : V → ℚ
  description : String

/-- `Draw`: a record of one realized choice inside a trace (class `Draw`). -/
structure Draw (V ρ : Type) where
  value : V
  choice : Choice V ρ
  tick_touched : Int
  tick_created : Int
  fixed : Bool

/-- Python's `x or y` on an optional integer `x`: `None` and `0` are falsy. -/
def pyOrTick : Option Int → Int → Int
  | none, t => t
  | some c, t => if c = 0 then t else c

/-- `Draw.__init__(value, choice, tick_touched, tick_created=None, fixed)`:
the stored `tick_created` is `tick_created or tick_touched`. -/
def drawInit {V ρ : Type} (value : V) (choice : Choice V ρ) (tick_touched : Int)
    (tick_created : Option Int) (fixed : Bool) : Draw V ρ :=
  ⟨value, choice, tick_touched, pyOrTick tick_created tick_touched, fixed⟩

/-- `Draw.score`: `choice.scorer(value)`, computed on demand. -/
def Draw.score {V ρ : Type} (d : Draw V ρ) : ℚ :=
  d.choice.scorer d.value

/-- `Draw.copy`: rebuilds the record through the constructor. -/
def Draw.copy {V ρ : Type} (d : Draw V ρ) : Draw V ρ :=
  drawInit d.value d.choice d.tick_touched (some d.tick_created) d.fixed

/-- `World`: a dict from choice name to Draw, as an association list in
insertion order. -/
abbrev World (V ρ : Type) := List (String × Draw V ρ)

/-- Dict lookup `world[name]` / `name in world`. -/
def wlookup {V ρ : Type} : World V ρ → String → Option (Draw V ρ)
  | [], _ => none
  | (m, d) :: rest, n => if m = n then some d else wlookup rest n

/-- Replace the draw bound to `n` (mutation of `world[name]`'s record). -/
def wupdate {V ρ : Type} : World V ρ → String → Draw V ρ → World V ρ
  | [], _, _ => []
  | (m, d) :: rest, n, d' =>
      if m = n then (m, d') :: rest else (m, d) :: wupdate rest n d'

/-- Insert a new binding `world[name] = draw` (name not present). -/
def winsert {V ρ : Type} (w : World V ρ) (n : String) (d : Draw V ρ) : World V ρ :=
  w ++ [(n, d)]

/-- The model callback `model(world, tick) -> (world, value)`, with the random
state threaded explicitly and `ZeroProbabilityException` able to escape. -/
abbrev Model (V ρ : Type) :=
  World V ρ → Int → ρ → Except PyExc (World V ρ × V) × ρ

/-- `Choice.sample(world, name, tick)`: on a present name, rebind the draw's
choice and `tick_touched`, raise on zero score, otherwise return the stored
value; on an absent name, draw fresh from the sampler and insert a new
non-fixed Draw. -/
def Choice.sample {V ρ : Type} (c : Choice V ρ) (w : World V ρ) (n : String)
    (tick : Int) (r : ρ) : Except PyExc (World V ρ × V) × ρ :=
  match wlookup w n with
  | some d =>
      let d' : Draw V ρ := { d with choice := c, tick_touched := tick }
      if Draw.score d' = 0 then (.error .zeroProbabilityException, r)
      else (.ok (wupdate w n d', d'.value), r)
  | none =>
      let (v, r') := c.sampler r
      (.ok (winsert w n (drawInit v c tick none false), v), r')

/-- `Choice.set(world, name, tick, fixed_val)`: on a present name, rebind and
overwrite the value with `fixed_val`, mark fixed, raise on zero score; on an
absent name, insert a fresh fixed Draw with no score check. -/
def Choice.set {V ρ : Type} (c : Choice V ρ) (w : World V ρ) (n : String)
    (tick : Int) (fixed_val : V) (r : ρ) : Except PyExc (World V ρ × V) × ρ :=
  match wlookup w n with
  | some d =>
      let d' : Draw V ρ :=
        { d with choice := c, tick_touched := tick, value := fixed_val, fixed := true }
      if Draw.score d' = 0 then (.error .zeroProbabilityException, r)
      else (.ok (wupdate w n d', fixed_val), r)
  | none =>
      (.ok (winsert w n (drawInit fixed_val c tick none true), fixed_val), r)

/-- `World.score`: product of the scores of all draws. -/
def World.score {V ρ : Type} (w : World V ρ) : ℚ :=
  (w.map (fun p => Draw.score p.2)).prod

/-- `World.copy`: per-entry `Draw.copy` (Choices stay shared). -/
def World.copy {V ρ : Type} (w : World V ρ) : World V ρ :=
  w.map (fun p => (p.1, Draw.copy p.2))

/-- `World.clean(tick)`: iterate over the entries (Python 2 `items()`
snapshot); an entry created this tick multiplies `inc_fw`; an entry neither
created nor touched this tick is removed and multiplies `inc_bw`.  Returns the
cleaned world together with `(inc_fw, inc_bw)`. -/
def World.clean {V ρ : Type} : World V ρ → Int → World V ρ × ℚ × ℚ
  | [], _ => ([], 1, 1)
  | (n, d) :: rest, tick =>
      let (w', fw, bw) := World.clean rest tick
      if d.tick_created = tick then ((n, d) :: w', Draw.score d * fw, bw)
      else if d.tick_touched ≠ tick then (w', fw, Draw.score d * bw)
      else ((n, d) :: w', fw, bw)

/-- The `[d for d in world.values() if not d.fixed]` list (kept with names so
that the picked draw can be updated in the pure embedding). -/
def proposableEntries {V ρ : Type} (w : World V ρ) : World V ρ :=
  w.filter (fun p => !p.2.fixed)

/-- `World.propose(model, tick)`: copy the world, pick one non-fixed draw
uniformly (`random.choice`; `IndexError` on an empty list is `crash`), record
its score, resample it, record the new score, re-execute the model, clean the
resulting world, and combine the counts, scores and cleanup products into the
backward and forward proposal probabilities (`ZeroDivisionError` on an empty
post list is `crash`). -/
def World.propose {V ρ : Type} (w : World V ρ) (model : Model V ρ) (tick : Int)
    (rs : RandomSource ρ) (r : ρ) :
    Except PyExc (World V ρ × V × ℚ × ℚ) × ρ :=
  let proposal := World.copy w
  let pre := proposableEntries proposal
  if pre.length = 0 then (.error .crash, r)
  else
    let (cidx, r1) := rs.choiceIndex r
    match pre.get? (cidx % pre.length) with
    | none => (.error .crash, r1)
    | some (name, draw) =>
        let draw_score_pre := Draw.score draw
        let (v', r2) := draw.choice.sampler r1
        let draw' : Draw V ρ := { draw with value := v' }
        let draw_score_post := Draw.score draw'
        match model (wupdate proposal name draw') tick r2 with
        | (.error e, r3) => (.error e, r3)
        | (.ok (mw, new_value), r3) =>
            let (new_world, inc_fw, inc_bw) := World.clean mw tick
            let post := proposableEntries new_world
            if post.length = 0 then (.error .crash, r3)
            else
              let bw := (1 / (post.length : ℚ)) * draw_score_pre * inc_bw
              let fw := (1 / (pre.length : ℚ)) * draw_score_post * inc_fw
              (.ok (new_world, new_value, bw, fw), r3)

/-- Modelled from the spec: `propose` as §4.2 states it, identical to the
source's `World.propose` except that step 7 takes the spec's formulas
literally — `bw = (1/|proposable_pre|) * scorePre * incBw` and
`fw = (1/|proposable_post|) * scorePost * incFw`.  Defined only to be compared
against the source's `World.propose`. -/
def proposeSpec {V ρ : Type} (w : World V ρ) (model : Model V ρ) (tick : Int)
    (rs : RandomSource ρ) (r : ρ) :
    Except PyExc (World V ρ × V × ℚ × ℚ) × ρ :=
  let proposal := World.copy w
  let pre := proposableEntries proposal
  if pre.length = 0 then (.error .crash, r)
  else
    let (cidx, r1) := rs.choiceIndex r
    match pre.get? (cidx % pre.length) with
    | none => (.error .crash, r1)
    | some (name, draw) =>
        let draw_score_pre := Draw.score draw
        let (v', r2) := draw.choice.sampler r1
        let draw' : Draw V ρ := { draw with value := v' }
        let draw_score_post := Draw.score draw'
        match model (wupdate proposal name draw') tick r2 with
        | (.error e, r3) => (.error e, r3)
        | (.ok (mw, new_value), r3) =>
            let (new_world, inc_fw, inc_bw) := World.clean mw tick
            let post := proposableEntries new_world
            if post.length = 0 then (.error .crash, r3)
            else
              let bw := (1 / (pre.length : ℚ)) * draw_score_pre * inc_bw
              let fw := (1 / (post.length : ℚ)) * draw_score_post * inc_fw
              (.ok (new_world, new_value, bw, fw), r3)

/-- `initialize(model, condition)`: re-run `model(World(), -1)` until the
condition holds, with explicit fuel for the unbounded loop. -/
def initChain {V ρ : Type} : Nat → Model V ρ → (V → Bool) → ρ →
    Except PyExc (World V ρ × V) × ρ
  | 0, _, _, r => (.error .fuelOut, r)
  | fuel + 1, model, cond, r =>
      match model [] (-1) r with
      | (.error e, r') => (.error e, r')
      | (.ok (w, v), r') =>
          if cond v then (.ok (w, v), r') else initChain fuel model cond r'

/-- One Metropolis-Hastings transition of the `mcmc` inner loop body: try
`propose`; on `ZeroProbabilityException` keep the state; otherwise apply the
condition gate and the acceptance test
`p = (proposal.score() / world.score()) * (bw / fw)`, accepting when `p ≥ 1`
or `flip(p)` (Python's float division by zero is `crash`). -/
def transStep {V ρ : Type} (model : Model V ρ) (cond : V → Bool)
    (rs : RandomSource ρ) (tick : Int) (st : World V ρ × V) (r : ρ) :
    Except PyExc (World V ρ × V) × ρ :=
  match World.propose st.1 model tick rs r with
  | (.error .zeroProbabilityException, r') => (.ok st, r')
  | (.error e, r') => (.error e, r')
  | (.ok (proposal, new_value, bw, fw), r') =>
      if cond new_value then
        if World.score st.1 = 0 then (.error .crash, r')
        else if fw = 0 then (.error .crash, r')
        else
          let p := (World.score proposal / World.score st.1) * (bw / fw)
          if 1 ≤ p then (.ok (proposal, new_value), r')
          else
            let (b, r'') := pyFlip rs p r'
            if b then (.ok (proposal, new_value), r'') else (.ok st, r'')
      else (.ok st, r')

/-- The inner `for j in range(num_steps)` loop of `mcmc`, starting at step
index `j` with `n` steps remaining in round `i`; each transition uses tick
`i * j` exactly as the source does. -/
def runSteps {V ρ : Type} (model : Model V ρ) (cond : V → Bool)
    (rs : RandomSource ρ) (i : Nat) :
    Nat → Nat → (World V ρ × V) → ρ → Except PyExc (World V ρ × V) × ρ
  | _, 0, st, r => (.ok st, r)
  | j, n + 1, st, r =>
      match transStep model cond rs ((i : Int) * (j : Int)) st r with
      | (.ok st', r') => runSteps model cond rs i (j + 1) n st' r'
      | (.error e, r') => (.error e, r')

/-- One round of `mcmc`: `num_steps` Metropolis-Hastings transitions of round
index `i`. -/
def runRound {V ρ : Type} (model : Model V ρ) (cond : V → Bool)
    (rs : RandomSource ρ) (numSteps : Nat) (i : Nat) (st : World V ρ × V)
    (r : ρ) : Except PyExc (World V ρ × V) × ρ :=
  runSteps model cond rs i 0 numSteps st r

/-- The outer `for i in range(num_samples)` loop of `mcmc`: run each round and
append `query(value)` of the state retained after its last transition. -/
def mcmcRounds {V ρ T : Type} (model : Model V ρ) (cond : V → Bool)
    (rs : RandomSource ρ) (query : V → T) (numSteps : Nat) :
    Nat → Nat → (World V ρ × V) → ρ → Except PyExc (List T × (World V ρ × V)) × ρ
  | _, 0, st, r => (.ok ([], st), r)
  | i, n + 1, st, r =>
      match runRound model cond rs numSteps i st r with
      | (.error e, r') => (.error e, r')
      | (.ok st', r') =>
          match mcmcRounds model cond rs query numSteps (i + 1) n st' r' with
          | (.ok (samples, stF), r'') => (.ok (query st'.2 :: samples, stF), r'')
          | (.error e, r'') => (.error e, r'')

/-- `mcmc(model, condition, query, num_steps, num_samples)`. -/
def mcmc {V ρ T : Type} (fuel : Nat) (model : Model V ρ) (cond : V → Bool)
    (query : V → T) (numSteps numSamples : Nat) (rs : RandomSource ρ) (r : ρ) :
    Except PyExc (List T) × ρ :=
  match initChain fuel model cond r with
  | (.error e, r') => (.error e, r')
  | (.ok st, r') =>
      match mcmcRounds model cond rs query numSteps 0 numSamples st r' with
      | (.ok (samples, _), r'') => (.ok samples, r'')
      | (.error e, r'') => (.error e, r'')

/-- `single_rejection(model, condition, query)`: run the model on a fresh
empty trace until the condition holds, then return `query(value)`; fuel bounds
the unbounded loop. -/
def single_rejection {V ρ T : Type} : Nat → Model V ρ → (V → Bool) → (V → T) →
    ρ → Except PyExc T × ρ
  | 0, _, _, _, r => (.error .fuelOut, r)
  | fuel + 1, model, cond, query, r =>
      match model [] (-1) r with
      | (.error e, r') => (.error e, r')
      | (.ok (_, v), r') =>
          if cond v then (.ok (query v), r')
          else single_rejection fuel model cond query r'

/-- One `mapp(lambda _: single_rejection(...), range(k))` batch, with the
sequential `map` fallback of the source (no `parallel` module is present). -/
def runBatch {V ρ T : Type} (fuel : Nat) (model : Model V ρ) (cond : V → Bool)
    (query : V → T) : Nat → ρ → Except PyExc (List T) × ρ
  | 0, r => (.ok [], r)
  | k + 1, r =>
      match single_rejection fuel model cond query r with
      | (.error e, r') => (.error e, r')
      | (.ok t, r') =>
          match runBatch fuel model cond query k r' with
          | (.ok ts, r'') => (.ok (t :: ts), r'')
          | (.error e, r'') => (.error e, r'')

/-- The `for _ in range(int(num_samples / 100))` loop of `rejection`: `m` full
batches of 100. -/
def rejectionBatches {V ρ T : Type} (fuel : Nat) (model : Model V ρ)
    (cond : V → Bool) (query : V → T) : Nat → ρ → Except PyExc (List T) × ρ
  | 0, r => (.ok [], r)
  | m + 1, r =>
      match runBatch fuel model cond query 100 r with
      | (.error e, r') => (.error e, r')
      | (.ok ts, r') =>
          match rejectionBatches fuel model cond query m r' with
          | (.ok ts', r'') => (.ok (ts ++ ts'), r'')
          | (.error e, r'') => (.error e, r'')

/-- `rejection(model, condition, query, num_samples)`: `num_samples / 100`
full batches of 100 followed by one batch of `num_samples % 100`. -/
def rejection {V ρ T : Type} (fuel : Nat) (model : Model V ρ) (cond : V → Bool)
    (query : V → T) (num_samples : Nat) (r : ρ) : Except PyExc (List T) × ρ :=
  match rejectionBatches fuel model cond query (num_samples / 100) r with
  | (.error e, r') => (.error e, r')
  | (.ok ts, r') =>
      match runBatch fuel model cond query (num_samples % 100) r' with
      | (.ok ts', r'') => (.ok (ts ++ ts'), r'')
      | (.error e, r'') => (.error e, r'')

/-! ### Heap model of `World.copy` / `Draw.copy` reference independence

Python draws are heap records referenced by the dict; to state that `copy()`
is reference-independent we model the heap explicitly: a store of Draw
records addressed by index, and a world as a name-to-address map.  `Draw.copy`
allocates a fresh record built by the constructor from the fields of the
original; `World.copy` does so for every entry. -/

/-- The heap of Draw records; an address is an index into the store. -/
abbrev Store (V ρ : Type) := List (Draw V ρ)

/-- A world as a mapping from names to heap addresses of Draw records. -/
abbrev WorldRef := List (String × Nat)

/-- `World.copy` over the heap model: each entry's Draw record is read,
rebuilt through the constructor (`Draw.copy`) and allocated at a fresh
address (`none` on a dangling address). -/
def worldCopyRef {V ρ : Type} : WorldRef → Store V ρ → Option (WorldRef × Store V ρ)
  | [], s => some ([], s)
  | (n, a) :: rest, s =>
      match s.get? a with
      | none => none
      | some d =>
          match worldCopyRef rest (s ++ [Draw.copy d]) with
          | none => none
          | some (w', s') => some ((n, s.length) :: w', s')

/-! ### Concrete instances used by witnesses and counterexamples -/

/-- A trivial choice: constant sampler, constant score 1. -/
def cFlip : Choice Bool Unit := ⟨fun r => (true, r), fun _ => 1, "flip"⟩

/-- A choice whose every value scores 1/2. -/
def cHalf : Choice Bool Unit := ⟨fun r => (true, r), fun _ => 1 / 2, "half"⟩

/-- A deterministic random source over a unit state. -/
def rsUnit : RandomSource Unit := ⟨fun r => (0, r), fun r => (0, r)⟩

/-- A world with one entry touched at tick 4, one created at tick 4, and one
stale entry (both ticks 3). -/
def c3world : World Bool Unit :=
  [("touched", { drawInit true cFlip 3 none false with tick_touched := 4 }),
   ("created", drawInit true cHalf 4 none false),
   ("stale", drawInit true cFlip 3 none false)]

/-- Projection of a `propose` result onto its `(bw, fw)` components. -/
def okBwFw {V ρ : Type} : Except PyExc (World V ρ × V × ℚ × ℚ) → Option (ℚ × ℚ)
  | .ok (_, _, b, f) => some (b, f)
  | _ => none

/-- A one-draw world: a single non-fixed draw created at tick -1. -/
def c1world : World Bool Unit := [("a", drawInit true cFlip (-1) none false)]

/-- A model that revisits `"a"` and creates a second draw `"b"` scoring 1/2:
re-execution grows the trace from one to two proposable draws. -/
def c1model : Model Bool Unit := fun w tick r =>
  match Choice.sample cFlip w "a" tick r with
  | (.ok (w1, _), r1) =>
      match Choice.sample cHalf w1 "b" tick r1 with
      | (.ok (w2, _), r2) => (.ok (w2, true), r2)
      | (.error e, r2) => (.error e, r2)
  | (.error e, r1) => (.error e, r1)

/-- The world `propose c1world c1model 1` produces: `"a"` retouched at tick 1,
`"b"` created at tick 1. -/
def c1newWorld : World Bool Unit :=
  [("a", ⟨true, cFlip, 1, -1, false⟩), ("b", ⟨true, cHalf, 1, 1, false⟩)]

/-- `score_binomial(n, k, p)` of the source, over exact rationals: 0 for
`k > n` (and for negative `k`, where `binom.pmf` is 0), otherwise
`C(n,k) p^k (1-p)^(n-k)`. -/
def scoreBinomial (n : Nat) (p : ℚ) (k : Int) : ℚ :=
  if (n : Int) < k then 0
  else if k < 0 then 0
  else (n.choose k.toNat : ℚ) * p ^ k.toNat * (1 - p) ^ (n - k.toNat)

/-- The `church_binomial_fixed` choice with `n = 10`, `p = 0.3`. -/
def cBinom : Choice Int Unit :=
  ⟨fun r => (0, r), scoreBinomial 10 (3 / 10), "binomial/fixed"⟩

/-- A deterministic random source over a `List Int` log state. -/
def rsLog : RandomSource (List Int) := ⟨fun r => (0, r), fun r => (0, r)⟩

/-- A choice over the log state: constant sampler, constant score 1. -/
def cFlipLog : Choice Bool (List Int) := ⟨fun r => (true, r), fun _ => 1, "flip"⟩

/-- A model that records, in the random-state log, the tick of every call it
receives, and makes the single non-fixed choice `"a"`. -/
def c2model : Model Bool (List Int) := fun w tick r =>
  match Choice.sample cFlipLog w "a" tick r with
  | (res, r') => (res, tick :: r')

/-- A model making the single non-fixed choice `"a"` with constant score 1. -/
def cSampleModel : Model Bool Unit := fun w tick r =>
  Choice.sample cFlip w "a" tick r

/-- The condition callback that always holds. -/
def condTrue : Bool → Bool := fun _ => true

/-- The identity query callback. -/
def queryId : Bool → Bool := fun v => v

/-- A one-draw world whose draw was created at tick 0. -/
def c5world : World Bool Unit := [("a", drawInit true cFlip 0 none false)]

/-- A draw created at tick 0 and then touched at tick 1 (as `Choice.sample`
does on a revisit): `tick_created = 0`, `tick_touched = 1`. -/
def c10draw : Draw Bool Unit :=
  { drawInit true cFlip 0 none false with tick_touched := 1 }

/-- A draw created and touched at tick 5. -/
def c10drawB : Draw Bool Unit := drawInit true cFlip 5 none false

/-- The draw of `c5world` after `Choice.set cFlip _ "a" 1 false`: rebound,
overwritten with `false` and marked fixed. -/
def c4refDraw : Draw Bool Unit :=
  { drawInit true cFlip 0 none false with choice := cFlip, tick_touched := 1, value := false, fixed := true }

/-- The draw of `c5world` after a revisit by `Choice.sample cFlip _ "a" 1`:
choice and `tick_touched` rebound, value untouched. -/
def c5refDraw : Draw Bool Unit :=
  { drawInit true cFlip 0 none false with choice := cFlip, tick_touched := 1 }

/-- The property "one sample per round, each the `query` projection of the
state retained after the last transition of its round", for the sample list
produced by the outer loop of `mcmc` from round index `i` on. -/
def roundsSpec {V ρ T : Type} (model : Model V ρ) (cond : V → Bool)
    (rs : RandomSource ρ) (query : V → T) (numSteps : Nat) :
    Nat → Nat → (World V ρ × V) → ρ → List T → Prop
  | _, 0, _, _, samples => samples = []
  | i, n + 1, st, r, samples =>
      ∃ st2 r2 rest, runRound model cond rs numSteps i st r = (.ok st2, r2) ∧
        samples = query st2.2 :: rest ∧
        roundsSpec model cond rs query numSteps (i + 1) n st2 r2 rest

/-! ### C3: World.clean -/

/-- Claim C3: after `clean(tick)` every retained Draw satisfies
`tickTouched = tick` or `tickCreated = tick` (entries with both ticks
different from `tick` are physically removed), `incFw` is the product of the
scores of the entries with `tickCreated = tick`, and `incBw` is the product of
the scores of the removed entries. -/
theorem C3_clean_spec {V ρ : Type} (w : World V ρ) (tick : Int) :
    (∀ p ∈ (World.clean w tick).1,
        p.2.tick_touched = tick ∨ p.2.tick_created = tick) ∧
    (World.clean w tick).1 =
      w.filter (fun p => p.2.tick_created = tick ∨ p.2.tick_touched = tick) ∧
    (World.clean w tick).2.1 =
      ((w.filter (fun p => p.2.tick_created = tick)).map
        (fun p => Draw.score p.2)).prod ∧
    (World.clean w tick).2.2 =
      ((w.filter (fun p => p.2.tick_created ≠ tick ∧ p.2.tick_touched ≠ tick)).map
        (fun p => Draw.score p.2)).prod := by
  induction w with
  | nil => simp [World.clean]
  | cons hd tl ih =>
      obtain ⟨n, d⟩ := hd
      obtain ⟨ih1, ih2, ih3, ih4⟩ := ih
      rcases hcl : World.clean tl tick with ⟨w', fw, bw⟩
      rw [hcl] at ih1 ih2 ih3 ih4
      simp only at ih1 ih2 ih3 ih4
      by_cases h1 : d.tick_created = tick
      · simp only [World.clean, hcl, if_pos h1]
        refine ⟨?_, by simp [h1, ih2], by simp [h1, ih3], by simp [h1, ih4]⟩
        intro p hp
        rcases List.mem_cons.mp hp with h | h
        · right; rw [h]; exact h1
        · exact ih1 p h
      · by_cases h2 : d.tick_touched = tick
        · simp only [World.clean, hcl, if_neg h1, if_neg (by simp [h2] :
            ¬(d.tick_touched ≠ tick))]
          refine ⟨?_, by simp [h1, h2, ih2], by simp [h1, ih3],
            by simp [h1, h2, ih4]⟩
          intro p hp
          rcases List.mem_cons.mp hp with h | h
          · left; rw [h]; exact h2
          · exact ih1 p h
        · simp only [World.clean, hcl, if_neg h1, if_pos (by simp [h2] :
            d.tick_touched ≠ tick)]
          exact ⟨ih1, by simp [h1, h2, ih2], by simp [h1, ih3],
            by simp [h1, h2, ih4]⟩

/-- Witness for C3 at a concrete world: one entry touched this tick, one
created this tick, one stale entry that gets removed. -/
theorem C3_clean_spec_witness :
    (∀ p ∈ (World.clean c3world 4).1,
        p.2.tick_touched = 4 ∨ p.2.tick_created = 4) ∧
    (World.clean c3world 4).1 =
      c3world.filter (fun p => p.2.tick_created = 4 ∨ p.2.tick_touched = 4) ∧
    (World.clean c3world 4).2.1 =
      ((c3world.filter (fun p => p.2.tick_created = 4)).map
        (fun p => Draw.score p.2)).prod ∧
    (World.clean c3world 4).2.2 =
      ((c3world.filter (fun p => p.2.tick_created ≠ 4 ∧ p.2.tick_touched ≠ 4)).map
        (fun p => Draw.score p.2)).prod :=
  C3_clean_spec c3world 4

/-! ### C10: Draw.copy through the constructor's `or` defaulting -/

/-- Counterexample to claim C10: a draw created at tick 0 and touched at tick
1 does not survive `Draw.copy` unchanged — the constructor's
`tick_created or tick_touched` treats the integer 0 as falsy, so the copy's
`tick_created` becomes 1. -/
theorem C10_copy_counterexample :
    (Draw.copy c10draw).tick_created = 1 ∧ c10draw.tick_created = 0 ∧
      (1 : Int) ≠ 0 := by
  refine ⟨rfl, rfl, by decide⟩

/-- Claim C10 amended: `Draw.copy` preserves all five fields provided
`tick_created` is nonzero or equals `tick_touched`; with `tick_created = 0`
and `tick_touched ≠ 0` the constructor's falsy-0 defaulting rewrites the
copy's `tick_created` to `tick_touched`. -/
theorem C10_copy_fields {V ρ : Type} (d : Draw V ρ)
    (h : d.tick_created ≠ 0 ∨ d.tick_touched = 0) : Draw.copy d = d := by
  obtain ⟨v, c, tt, tc, f⟩ := d
  simp only [Draw.copy, drawInit, pyOrTick, Draw.mk.injEq, and_true, true_and]
  simp only at h
  rcases h with h | h
  · rw [if_neg h]
  · by_cases h0 : tc = 0
    · rw [if_pos h0, h, h0]
    · rw [if_neg h0]

/-- Witness for C10 at a draw created and touched at tick 5. -/
theorem C10_copy_fields_witness :
    (c10drawB.tick_created ≠ 0 ∨ c10drawB.tick_touched = 0) ∧
      Draw.copy c10drawB = c10drawB :=
  ⟨Or.inl (by decide), C10_copy_fields c10drawB (Or.inl (by decide))⟩

/-! ### C9: single_rejection satisfies the condition -/

/-- Claim C9: whenever `single_rejection` terminates with a value, that value
is `query v` for some `v` satisfying the condition. -/
theorem C9_single_rejection_cond {V ρ T : Type} (fuel : Nat) (model : Model V ρ)
    (cond : V → Bool) (query : V → T) (r : ρ) (t : T) (r' : ρ)
    (h : single_rejection fuel model cond query r = (.ok t, r')) :
    ∃ v, cond v = true ∧ t = query v := by
  induction fuel generalizing r with
  | zero => simp [single_rejection] at h
  | succ n ih =>
      rw [single_rejection] at h
      split at h
      · exact absurd h (by simp)
      · rename_i w v r1 heq
        split at h
        · rename_i hc
          injection h with h1 h2
          injection h1 with h3
          exact ⟨v, hc, h3.symm⟩
        · rename_i hc
          exact ih _ h

/-- Witness for C9: a terminating concrete run of `single_rejection`. -/
theorem C9_single_rejection_cond_witness :
    ∃ v, condTrue v = true ∧ true = queryId v :=
  C9_single_rejection_cond 1 cSampleModel condTrue queryId () true () rfl

/-! ### C8: rejection sample count -/

/-- One `mapp` batch of `k` single rejections yields `k` samples. -/
theorem runBatch_length {V ρ T : Type} (fuel : Nat) (model : Model V ρ)
    (cond : V → Bool) (query : V → T) :
    ∀ (k : Nat) (r : ρ) (ts : List T) (r' : ρ),
      runBatch fuel model cond query k r = (.ok ts, r') → ts.length = k := by
  intro k
  induction k with
  | zero =>
      intro r ts r' h
      rw [runBatch] at h
      injection h with h1 h2
      injection h1 with h3
      rw [← h3]
      rfl
  | succ m ih =>
      intro r ts r' h
      rw [runBatch] at h
      rcases h1 : single_rejection fuel model cond query r with ⟨res, r1⟩
      rw [h1] at h
      rcases res with e | t
      · simp at h
      · simp only [] at h
        rcases h2 : runBatch fuel model cond query m r1 with ⟨res2, r2⟩
        rw [h2] at h
        rcases res2 with e2 | ts0
        · simp at h
        · injection h with ha hb
          injection ha with hc
          rw [← hc, List.length_cons, ih _ _ _ h2]

/-- `m` full batches of 100 yield `100 * m` samples. -/
theorem rejectionBatches_length {V ρ T : Type} (fuel : Nat) (model : Model V ρ)
    (cond : V → Bool) (query : V → T) :
    ∀ (m : Nat) (r : ρ) (ts : List T) (r' : ρ),
      rejectionBatches fuel model cond query m r = (.ok ts, r') →
        ts.length = 100 * m := by
  intro m
  induction m with
  | zero =>
      intro r ts r' h
      rw [rejectionBatches] at h
      injection h with h1 h2
      injection h1 with h3
      rw [← h3]
      rfl
  | succ k ih =>
      intro r ts r' h
      rw [rejectionBatches] at h
      rcases h1 : runBatch fuel model cond query 100 r with ⟨res, r1⟩
      rw [h1] at h
      rcases res with e | ts1
      · simp at h
      · simp only [] at h
        rcases h2 : rejectionBatches fuel model cond query k r1 with ⟨res2, r2⟩
        rw [h2] at h
        rcases res2 with e2 | ts0
        · simp at h
        · injection h with ha hb
          injection ha with hc
          rw [← hc, List.length_append, runBatch_length _ _ _ _ _ _ _ _ h1,
            ih _ _ _ h2]
          ring

/-- Claim C8: for every numSamples, a successful `rejection` run returns
exactly numSamples samples — the `numSamples / 100` full batches of 100 plus
the final partial batch of `numSamples % 100`. -/
theorem C8_rejection_length {V ρ T : Type} (fuel : Nat) (model : Model V ρ)
    (cond : V → Bool) (query : V → T) (num_samples : Nat) (r : ρ) (l : List T)
    (r' : ρ) (h : rejection fuel model cond query num_samples r = (.ok l, r')) :
    l.length = num_samples := by
  rw [rejection] at h
  rcases h1 : rejectionBatches fuel model cond query (num_samples / 100) r
    with ⟨res, r1⟩
  rw [h1] at h
  rcases res with e | ts1
  · simp at h
  · simp only [] at h
    rcases h2 : runBatch fuel model cond query (num_samples % 100) r1
      with ⟨res2, r2⟩
    rw [h2] at h
    rcases res2 with e2 | ts2
    · simp at h
    · injection h with ha hb
      injection ha with hc
      rw [← hc, List.length_append,
        rejectionBatches_length _ _ _ _ _ _ _ _ h1,
        runBatch_length _ _ _ _ _ _ _ _ h2]
      exact Nat.div_add_mod num_samples 100

/-- Witness for C8: a concrete one-sample run. -/
theorem C8_rejection_length_witness : ([true] : List Bool).length = 1 :=
  C8_rejection_length 1 cSampleModel condTrue queryId 1 () [true] () rfl

/-! ### C4: Choice.set -/

/-- Counterexample to claim C4: conditioning a fresh binomial draw
(`n = 10`, `p = 3/10`) on `fixedVal = 11` does not raise — `set` on an absent
name inserts the fixed draw with no score check, even though the value scores
zero. -/
theorem C4_set_fresh_counterexample :
    (Choice.set cBinom [] "bag_k_0" 0 11 ()).1 =
      .ok ([("bag_k_0", drawInit 11 cBinom 0 none true)], 11) ∧
    cBinom.scorer 11 = 0 :=
  ⟨rfl, by decide⟩

/-- Claim C4 amended: `set` assigns `fixedVal` and marks the draw fixed,
raising `ZeroProbability` exactly when the name is already present and the
assigned value scores 0; on an absent name it inserts the fixed draw without
any score check, so conditioning a fresh draw never raises. -/
theorem C4_set_spec {V ρ : Type} (c : Choice V ρ) (w : World V ρ) (n : String)
    (tick : Int) (v : V) (r : ρ) :
    ((Choice.set c w n tick v r).1 = .error .zeroProbabilityException ↔
      ((wlookup w n).isSome = true ∧ c.scorer v = 0)) ∧
    (∀ d, wlookup w n = some d → c.scorer v ≠ 0 →
      Choice.set c w n tick v r =
        (.ok (wupdate w n { d with choice := c, tick_touched := tick, value := v, fixed := true }, v), r)) ∧
    (wlookup w n = none →
      Choice.set c w n tick v r =
        (.ok (winsert w n (drawInit v c tick none true), v), r)) := by
  rcases hl : wlookup w n with _ | d
  · simp [Choice.set, hl]
  · by_cases hs : c.scorer v = 0
    · simp [Choice.set, hl, Draw.score, hs]
    · simp [Choice.set, hl, Draw.score, hs]

/-- Witness for C4 on a present name with a nonzero-scoring value: the draw is
rebound, overwritten and marked fixed. -/
theorem C4_set_spec_witness :
    Choice.set cFlip c5world "a" 1 false () =
      (.ok (wupdate c5world "a" c4refDraw, false), ()) :=
  (C4_set_spec cFlip c5world "a" 1 false ()).2.1
    (drawInit true cFlip 0 none false) rfl (by decide)

/-! ### C5: Choice.sample -/

/-- Claim C5: `sample` on a present name rebinds the draw's choice and
`tick_touched`, raises exactly when the stored value scores 0 under the newly
bound scorer, and otherwise returns the stored value unchanged; on an absent
name it draws from the sampler, inserts a new non-fixed Draw, and returns the
fresh value without raising. -/
theorem C5_sample_spec {V ρ : Type} (c : Choice V ρ) (w : World V ρ)
    (n : String) (tick : Int) (r : ρ) :
    ((Choice.sample c w n tick r).1 = .error .zeroProbabilityException ↔
      (∃ d, wlookup w n = some d ∧ c.scorer d.value = 0)) ∧
    (∀ d, wlookup w n = some d → c.scorer d.value ≠ 0 →
      Choice.sample c w n tick r =
        (.ok (wupdate w n { d with choice := c, tick_touched := tick },
          d.value), r)) ∧
    (wlookup w n = none →
      Choice.sample c w n tick r =
        (.ok (winsert w n (drawInit (c.sampler r).1 c tick none false),
          (c.sampler r).1), (c.sampler r).2)) := by
  rcases hl : wlookup w n with _ | d
  · simp [Choice.sample, hl]
  · by_cases hs : c.scorer d.value = 0
    · simp [Choice.sample, hl, Draw.score, hs]
    · simp [Choice.sample, hl, Draw.score, hs]

/-- Witness for C5 on a present name: revisit rebinds `tick_touched` and
returns the stored value with no resampling. -/
theorem C5_sample_spec_witness :
    Choice.sample cFlip c5world "a" 1 () =
      (.ok (wupdate c5world "a" c5refDraw, true), ()) :=
  (C5_sample_spec cFlip c5world "a" 1 ()).2.1
    (drawInit true cFlip 0 none false) rfl (by decide)

/-! ### C1: the bw/fw weights of World.propose -/

/-- Counterexample to claim C1: on a world with one proposable draw whose
re-execution creates a second one (so that the pre-resampling count 1 and the
post-cleaning count 2 differ), `propose` returns `(bw, fw) = (1/2, 1/2)`,
whereas the claim's formulas — `bw` from the pre-resampling count and `fw`
from the post-cleaning count, computed verbatim by `proposeSpec` — give
`(1, 1/4)`. -/
theorem C1_propose_counterexample :
    okBwFw (World.propose c1world c1model 1 rsUnit ()).1 = some (1/2, 1/2) ∧
    okBwFw (proposeSpec c1world c1model 1 rsUnit ()).1 = some (1, 1/4) ∧
    (((1 : ℚ)/2, (1 : ℚ)/2) : ℚ × ℚ) ≠ ((1 : ℚ), (1 : ℚ)/4) := by
  refine ⟨?_, ?_, by norm_num⟩
  · simp +decide [World.propose, okBwFw, c1world, c1model, rsUnit, World.copy,
      Draw.copy, drawInit, pyOrTick, proposableEntries, wlookup, wupdate,
      winsert, Choice.sample, World.clean, Draw.score, cFlip, cHalf]
  · simp +decide [proposeSpec, okBwFw, c1world, c1model, rsUnit, World.copy,
      Draw.copy, drawInit, pyOrTick, proposableEntries, wlookup, wupdate,
      winsert, Choice.sample, World.clean, Draw.score, cFlip, cHalf]
    norm_num

/-- Claim C1 amended: a successful `propose` returns
`bw = (1/|proposable_post|) * scorePre * incBw` and
`fw = (1/|proposable_pre|) * scorePost * incFw` — the code pairs the
pre-resample score with the count of proposable draws in the cleaned new
world, and the post-resample score with the count collected before
resampling (the spec's formulas have the two counts swapped). -/
theorem C1_propose_weights {V ρ : Type} (w : World V ρ) (model : Model V ρ)
    (tick : Int) (rs : RandomSource ρ) (r : ρ) (nw : World V ρ) (nv : V)
    (bw fw : ℚ) (rF : ρ)
    (h : World.propose w model tick rs r = (.ok (nw, nv, bw, fw), rF)) :
    ∃ name draw v2 r2 mw,
      (name, draw) ∈ proposableEntries (World.copy w) ∧
      draw.choice.sampler (rs.choiceIndex r).2 = (v2, r2) ∧
      model (wupdate (World.copy w) name { draw with value := v2 }) tick r2 =
        (.ok (mw, nv), rF) ∧
      nw = (World.clean mw tick).1 ∧
      bw = (1 / ((proposableEntries (World.clean mw tick).1).length : ℚ)) *
        Draw.score draw * (World.clean mw tick).2.2 ∧
      fw = (1 / ((proposableEntries (World.copy w)).length : ℚ)) *
        Draw.score { draw with value := v2 } * (World.clean mw tick).2.1 := by
  simp only [World.propose] at h
  by_cases h0 : (proposableEntries (World.copy w)).length = 0
  · rw [if_pos h0] at h
    exact absurd h (by simp)
  · rw [if_neg h0] at h
    rcases hg : (proposableEntries (World.copy w)).get?
        ((rs.choiceIndex r).1 % (proposableEntries (World.copy w)).length)
      with _ | nd
    · rw [hg] at h
      exact absurd h (by simp)
    · obtain ⟨name, draw⟩ := nd
      rw [hg] at h
      simp only [] at h
      rcases hm : model (wupdate (World.copy w) name
          { draw with value := (draw.choice.sampler (rs.choiceIndex r).2).1 })
          tick ((draw.choice.sampler (rs.choiceIndex r).2).2) with ⟨mres, r3⟩
      rw [hm] at h
      rcases mres with e | p
      · exact absurd h (by simp)
      · obtain ⟨mw, nv'⟩ := p
        simp only [] at h
        by_cases hp : (proposableEntries (World.clean mw tick).1).length = 0
        · rw [if_pos hp] at h
          exact absurd h (by simp)
        · rw [if_neg hp] at h
          injection h with h1 h2
          injection h1 with h3
          injection h3 with ha hb
          injection hb with hc hd
          injection hd with he hf
          subst h2
          subst ha
          subst hc
          subst he
          subst hf
          exact ⟨name, draw, (draw.choice.sampler (rs.choiceIndex r).2).1,
            (draw.choice.sampler (rs.choiceIndex r).2).2,
            mw, List.get?_mem hg, rfl, hm, rfl, rfl, rfl⟩

/-- Witness for C1: the amended formulas applied at the concrete instance of
the counterexample. -/
theorem C1_propose_weights_witness :
    ∃ name draw v2 r2 mw,
      (name, draw) ∈ proposableEntries (World.copy c1world) ∧
      draw.choice.sampler (rsUnit.choiceIndex ()).2 = (v2, r2) ∧
      c1model (wupdate (World.copy c1world) name { draw with value := v2 }) 1
        r2 = (.ok (mw, true), ()) ∧
      c1newWorld = (World.clean mw 1).1 ∧
      (1 : ℚ)/2 = (1 / ((proposableEntries (World.clean mw 1).1).length : ℚ)) *
        Draw.score draw * (World.clean mw 1).2.2 ∧
      (1 : ℚ)/2 = (1 / ((proposableEntries (World.copy c1world)).length : ℚ)) *
        Draw.score { draw with value := v2 } * (World.clean mw 1).2.1 :=
  C1_propose_weights c1world c1model 1 rsUnit () c1newWorld true (1/2) (1/2) ()
    (by simp +decide [World.propose, c1world, c1model, c1newWorld, rsUnit,
      World.copy, Draw.copy, drawInit, pyOrTick, proposableEntries, wlookup,
      wupdate, winsert, Choice.sample, World.clean, Draw.score, cFlip, cHalf])

/-! ### C2: the tick passed to propose by mcmc -/

/-- Claim C2 fails on the code (`mcmc` passes `i * j` as the tick): with
`num_steps = 2`, `num_samples = 1`, and a model that logs into the random
state the tick of every call it receives, both Metropolis-Hastings
transitions call `propose` with tick `0 * 0 = 0 * 1 = 0`.  The final log
(latest first) is `[0, 0, -1]`: after the initial `-1` of `initialize`, the
two proposal ticks are both 0 — not unique per transition. -/
theorem C2_tick_collision :
    mcmc 1 c2model condTrue queryId 2 1 rsLog [] = (.ok [true], [0, 0, -1]) ∧
    ¬ (([0, 0, -1] : List Int).dropLast.Nodup) := by
  constructor
  · simp +decide [mcmc, initChain, mcmcRounds, runRound, runSteps, transStep,
      World.propose, World.score, World.copy, World.clean, Draw.copy,
      Draw.score, drawInit, pyOrTick, proposableEntries, wlookup, wupdate,
      winsert, Choice.sample, pyFlip, c2model, cFlipLog, rsLog, condTrue,
      queryId]
  · decide

/-! ### C6: reference independence of World.copy -/

/-- Addresses handed out by `worldCopyRef` are fresh: at or above the length
of the store it started from. -/
theorem worldCopyRef_fresh {V ρ : Type} :
    ∀ (w : WorldRef) (s : Store V ρ) (w' : WorldRef) (s' : Store V ρ),
      worldCopyRef w s = some (w', s') → ∀ p ∈ w', s.length ≤ p.2 := by
  intro w
  induction w with
  | nil =>
      intro s w' s' h p hp
      rw [worldCopyRef] at h
      injection h with h1
      injection h1 with h2 h3
      rw [← h2] at hp
      exact absurd hp (by simp)
  | cons hd tl ih =>
      intro s w' s' h p hp
      obtain ⟨n, ad⟩ := hd
      rw [worldCopyRef] at h
      rcases hg : s.get? ad with _ | d
      · rw [hg] at h
        exact absurd h (by simp)
      · rw [hg] at h
        simp only [] at h
        rcases hrec : worldCopyRef tl (s ++ [Draw.copy d]) with _ | q
        · rw [hrec] at h
          exact absurd h (by simp)
        · obtain ⟨w2, s2⟩ := q
          rw [hrec] at h
          simp only [] at h
          injection h with h1
          injection h1 with h2 h3
          rw [← h2] at hp
          rcases List.mem_cons.mp hp with he | he
          · rw [he]
          · have := ih (s ++ [Draw.copy d]) w2 s2 hrec p he
            rw [List.length_append] at this
            omega

/-- `worldCopyRef` only appends to the store: every address valid before the
copy still reads the same record afterwards. -/
theorem worldCopyRef_extends {V ρ : Type} :
    ∀ (w : WorldRef) (s : Store V ρ) (w' : WorldRef) (s' : Store V ρ),
      worldCopyRef w s = some (w', s') →
        ∀ a, a < s.length → s'.get? a = s.get? a := by
  intro w
  induction w with
  | nil =>
      intro s w' s' h a ha
      rw [worldCopyRef] at h
      injection h with h1
      injection h1 with h2 h3
      rw [← h3]
  | cons hd tl ih =>
      intro s w' s' h a ha
      obtain ⟨n, ad⟩ := hd
      rw [worldCopyRef] at h
      rcases hg : s.get? ad with _ | d
      · rw [hg] at h
        exact absurd h (by simp)
      · rw [hg] at h
        simp only [] at h
        rcases hrec : worldCopyRef tl (s ++ [Draw.copy d]) with _ | q
        · rw [hrec] at h
          exact absurd h (by simp)
        · obtain ⟨w2, s2⟩ := q
          rw [hrec] at h
          simp only [] at h
          injection h with h1
          injection h1 with h2 h3
          rw [← h3]
          rw [ih (s ++ [Draw.copy d]) w2 s2 hrec a
            (by rw [List.length_append]; omega)]
          exact List.get?_append ha

/-- Claim C6: `copy()` is reference-independent.  In the heap model, every
Draw address of the copy differs from every (valid) Draw address of the
original, so overwriting a copied Draw record with arbitrary new field
contents leaves every record of the original world readable unchanged. -/
theorem C6_copy_reference_independent {V ρ : Type} (w : WorldRef)
    (s : Store V ρ) (w' : WorldRef) (s' : Store V ρ)
    (h : worldCopyRef w s = some (w', s'))
    (name : String) (a : Nat) (hmem : (name, a) ∈ w) (ha : a < s.length)
    (name' : String) (b : Nat) (hmem' : (name', b) ∈ w') (d' : Draw V ρ) :
    b ≠ a ∧ (s'.set b d').get? a = s.get? a := by
  have hb : s.length ≤ b := worldCopyRef_fresh w s w' s' h (name', b) hmem'
  have hne : b ≠ a := by omega
  refine ⟨hne, ?_⟩
  rw [List.get?_set_ne _ _ hne]
  exact worldCopyRef_extends w s w' s' h a ha

/-- Witness for C6: a one-entry world; mutating the copied record leaves the
original record unchanged. -/
theorem C6_copy_reference_independent_witness :
    (1 : Nat) ≠ 0 ∧
      (([c10drawB, Draw.copy c10drawB].set 1 c10draw).get? 0 =
        [c10drawB].get? 0) :=
  C6_copy_reference_independent [("a", 0)] [c10drawB] [("a", 1)]
    [c10drawB, Draw.copy c10drawB] rfl "a" 0 (by simp) (by decide)
    "a" 1 (by simp) c10draw

/-! ### C7: shape of the mcmc sample list -/

/-- A successful run of the outer loop of `mcmc` produces one sample per
round, each the query of the state retained after that round's last
transition. -/
theorem mcmcRounds_spec {V ρ T : Type} (model : Model V ρ) (cond : V → Bool)
    (rs : RandomSource ρ) (query : V → T) (numSteps : Nat) :
    ∀ (n i : Nat) (st : World V ρ × V) (r : ρ) (samples : List T)
      (stF : World V ρ × V) (r2 : ρ),
      mcmcRounds model cond rs query numSteps i n st r =
        (.ok (samples, stF), r2) →
      samples.length = n ∧
        roundsSpec model cond rs query numSteps i n st r samples := by
  intro n
  induction n with
  | zero =>
      intro i st r samples stF r2 h
      rw [mcmcRounds] at h
      injection h with h1 h2
      injection h1 with h3
      injection h3 with h4 h5
      rw [← h4]
      exact ⟨rfl, rfl⟩
  | succ n ih =>
      intro i st r samples stF r2 h
      rw [mcmcRounds] at h
      rcases h1 : runRound model cond rs numSteps i st r with ⟨res, r'⟩
      rw [h1] at h
      rcases res with e | st2
      · exact absurd h (by simp)
      · simp only [] at h
        rcases h2 : mcmcRounds model cond rs query numSteps (i + 1) n st2 r'
          with ⟨res2, r''⟩
        rw [h2] at h
        rcases res2 with e2 | q
        · exact absurd h (by simp)
        · obtain ⟨samples0, stF0⟩ := q
          simp only [] at h
          injection h with ha hb
          injection ha with hc
          injection hc with hd he
          obtain ⟨hl, hr⟩ := ih (i + 1) st2 r' samples0 stF0 r'' h2
          rw [← hd]
          exact ⟨by rw [List.length_cons, hl], st2, r', samples0, h1, rfl, hr⟩

/-- Claim C7: a successful `mcmc` run returns exactly `numSamples` query
outputs, one per round of `numSteps` transitions, each the projection of the
state retained after the last transition of its round (intermediate states
are not recorded). -/
theorem C7_mcmc_shape {V ρ T : Type} (fuel : Nat) (model : Model V ρ)
    (cond : V → Bool) (query : V → T) (numSteps numSamples : Nat)
    (rs : RandomSource ρ) (r : ρ) (samples : List T) (rF : ρ)
    (h : mcmc fuel model cond query numSteps numSamples rs r =
      (.ok samples, rF)) :
    samples.length = numSamples ∧
    ∃ st0 r0, initChain fuel model cond r = (.ok st0, r0) ∧
      roundsSpec model cond rs query numSteps 0 numSamples st0 r0 samples := by
  rw [mcmc] at h
  rcases h1 : initChain fuel model cond r with ⟨res, r1⟩
  rw [h1] at h
  rcases res with e | st0
  · exact absurd h (by simp)
  · simp only [] at h
    rcases h2 : mcmcRounds model cond rs query numSteps 0 numSamples st0 r1
      with ⟨res2, r2⟩
    rw [h2] at h
    rcases res2 with e2 | q
    · exact absurd h (by simp)
    · obtain ⟨samples0, stF⟩ := q
      simp only [] at h
      injection h with ha hb
      injection ha with hc
      obtain ⟨hl, hr⟩ := mcmcRounds_spec model cond rs query numSteps
        numSamples 0 st0 r1 samples0 stF r2 h2
      rw [← hc]
      exact ⟨hl, st0, r1, rfl, hr⟩

/-- Witness for C7: a concrete two-round, one-step-per-round run. -/
theorem C7_mcmc_shape_witness :
    ([true, true] : List Bool).length = 2 ∧
    ∃ st0 r0, initChain 1 cSampleModel condTrue () = (.ok st0, r0) ∧
      roundsSpec cSampleModel condTrue rsUnit queryId 1 0 2 st0 r0
        [true, true] :=
  C7_mcmc_shape 1 cSampleModel condTrue queryId 1 2 rsUnit () [true, true] ()
    (by simp +decide [mcmc, initChain, mcmcRounds, runRound, runSteps,
      transStep, World.propose, World.score, World.copy, World.clean,
      Draw.copy, Draw.score, drawInit, pyOrTick, proposableEntries, wlookup,
      wupdate, winsert, Choice.sample, pyFlip, cSampleModel, cFlip, rsUnit,
      condTrue, queryId])
